import Mathlib

/-!
Verification of the Booking Scheduler & Ledger Core of SaiStarBooking
(`src/app.py`), a single-resource reservation manager.  The relevant logic is
embedded shallowly: booking records are Lean structures over `String`
(dates and `HH:MM` times are compared as strings in the source), money fields
are integers, the one fractional field (`total_hours`) is a rational, and the
fallible create/update/delete handlers return `Except`.
-/

/-- Lexicographic comparison of character lists: Python's `<` on strings
compares code points left to right, a strict prefix being smaller. -/
def pyLtChars : List Char → List Char → Bool
  | _, [] => false
  | [], _ :: _ => true
  | a :: as, b :: bs => if a < b then true else if b < a then false else pyLtChars as bs

/-- Python's `s1 < s2` on strings (used at src/app.py lines 96-97). -/
def sLt (a b : String) : Bool := pyLtChars a.data b.data

/-- Python's `s1 >= s2` on strings: under the total lexicographic order this is
the negation of `s1 < s2` (used at src/app.py lines 198 and 260). -/
def sGe (a b : String) : Bool := !(sLt a b)

/-- Digit character for a value `0..9` (strftime zero-padding building block). -/
def digitChar (n : Nat) : Char :=
  ['0', '1', '2', '3', '4', '5', '6', '7', '8', '9'].getD n '0'

/-- Zero-padded two-digit rendering of `n` (models `%H` / `%M` of `strftime`). -/
def twoDigits (n : Nat) : List Char := [digitChar (n / 10), digitChar (n % 10)]

/-- Rendering of `m` minutes after midnight as a zero-padded `"HH:MM"` string:
models `datetime.strftime("%H:%M")` at src/app.py line 36. -/
def minutesToHHMM (m : Nat) : String := ⟨twoDigits (m / 60 % 24) ++ ':' :: twoDigits (m % 60)⟩

/-- Minutes after midnight encoded by an `"HH:MM"` string: models
`datetime.strptime(s, "%H:%M")` (src/app.py lines 33-34, 204, 266) on the
five-character time strings the app uses. -/
def hhmmToMinutes (s : String) : Nat :=
  match s.data with
  | [h1, h2, _, m1, m2] =>
      (10 * (h1.toNat - 48) + (h2.toNat - 48)) * 60 + (10 * (m1.toNat - 48) + (m2.toNat - 48))
  | _ => 0

/-- Loop body of `get_time_slots` (src/app.py lines 31-38): starting `m` minutes
after midnight, emit `"HH:MM"` labels while `m ≤ 1410` (i.e. up to `"23:30"`),
stepping 30 minutes.  `fuel` bounds the recursion; the source loop takes 48
iterations, so any fuel of at least 49 realizes it exactly. -/
def slotsFrom : Nat → Nat → List String
  | 0, _ => []
  | fuel + 1, m => if m ≤ 1410 then minutesToHHMM m :: slotsFrom fuel (m + 30) else []

/-- Embedding of `get_time_slots` (src/app.py lines 31-38). -/
def get_time_slots : List String := slotsFrom 49 0

/-- One booking record, with the columns of `EXPECTED_HEADERS` (src/app.py
lines 16-22) after the type conversion of `get_data` (lines 66-75): `id` and the
money columns are integers, `total_hours` is fractional, the rest are text. -/
structure Booking where
  id : ℤ
  booking_date : String
  start_time : String
  end_time : String
  total_hours : ℚ
  rate_per_hour : ℤ
  total_charges : ℤ
  booked_by : String
  mobile_number : String
  advance_paid : ℤ
  advance_mode : String
  balance_paid : ℤ
  balance_mode : String
  remaining_due : ℤ
  remarks : String
deriving DecidableEq, Repr

/-- Raw spreadsheet cell for the `id` column, before the type conversion of
`get_data`: a numeric value, non-numeric text, or a missing entry. -/
inductive Cell where
  | num (n : ℤ)
  | text (s : String)
  | blank
deriving DecidableEq, Repr

/-- Ingestion of a raw `id` cell (src/app.py line 66):
`pd.to_numeric(df['id'], errors='coerce').fillna(0)` parses numeric cells and
turns non-numeric or missing ones into 0. -/
def coerce_id : Cell → ℤ
  | .num n => n
  | .text _ => 0
  | .blank => 0

/-- Embedding of `check_overlap` (src/app.py lines 89-99): keep the bookings
whose `booking_date` equals `date_str` as strings, drop the excluded id if one
is given, and report whether any kept booking satisfies
`start_time < end_str` and `end_time > start_str` (string comparisons). -/
def check_overlap (df : List Booking) (date_str start_str end_str : String)
    (exclude_id : Option ℤ) : Bool :=
  if df.isEmpty then false
  else
    let day0 := df.filter (fun b => b.booking_date == date_str)
    let day_bookings :=
      match exclude_id with
      | none => day0
      | some k => day0.filter (fun b => b.id != k)
    if day_bookings.isEmpty then false
    else
      let overlap :=
        day_bookings.filter (fun b => sLt b.start_time end_str && sLt start_str b.end_time)
      !overlap.isEmpty

/-- Maximum of the `id` column of a nonempty record set (`df['id'].max()` at
src/app.py line 102). -/
def maxId : List Booking → ℤ
  | [] => 0
  | b :: rest => rest.foldl (fun acc x => max acc x.id) b.id

/-- Embedding of `get_next_id` (src/app.py lines 101-102):
`1 if df.empty else df['id'].max() + 1`. -/
def get_next_id (df : List Booking) : ℤ :=
  if df.isEmpty then 1 else maxId df + 1

/-- Duration in hours between two `"HH:MM"` strings, as the handlers compute it
(src/app.py lines 204 and 266): the difference of the parsed times in seconds,
divided by 3600. -/
def durHours (s e : String) : ℚ :=
  ((((hhmmToMinutes e : ℤ) - (hhmmToMinutes s : ℤ)) * 60 : ℤ) : ℚ) / 3600

/-- Python's `int()` on an exact numeric value: truncation toward zero. -/
def pyInt (q : ℚ) : ℤ := q.num.tdiv q.den

/-- Error kinds of the lifecycle operations (spec §7).  `NotFound` stands for
the failure of the record lookup `df[df['id'] == edit_id].iloc[0]`
(src/app.py line 146), which raises when the id is absent. -/
inductive BookingError where
  | InvalidInterval
  | OverlappingBooking
  | NotFound
deriving DecidableEq, Repr

/-- Form inputs of the add/edit screens (src/app.py lines 152-174, 239-253):
the caller supplies no derived field. -/
structure Candidate where
  date : String
  name : String
  mobile : String
  start_time : String
  end_time : String
  rate : ℤ
  advance : ℤ
  balance : ℤ
  mode : String
  remarks : String
deriving DecidableEq, Repr

/-- Embedding of the create handler (src/app.py lines 258-281): reject
`b_start >= b_end` as `InvalidInterval`, then reject a detected overlap, else
append the new row of lines 270-280 with the derived fields of lines 265-268. -/
def createBooking (df : List Booking) (c : Candidate) : Except BookingError (List Booking) :=
  if sGe c.start_time c.end_time then .error .InvalidInterval
  else if check_overlap df c.date c.start_time c.end_time none then .error .OverlappingBooking
  else
    let dur := durHours c.start_time c.end_time
    let tot := pyInt (dur * (c.rate : ℚ))
    let rem := tot - c.advance - c.balance
    .ok (df ++ [{ id := get_next_id df, booking_date := c.date,
                  start_time := c.start_time, end_time := c.end_time,
                  total_hours := dur, rate_per_hour := c.rate, total_charges := tot,
                  booked_by := c.name, mobile_number := c.mobile,
                  advance_paid := c.advance, advance_mode := c.mode,
                  balance_paid := c.balance, balance_mode := c.mode,
                  remaining_due := rem, remarks := c.remarks }])

/-- Field assignments of the edit handler's save path (src/app.py lines
203-221): the record keeps its `id` and `balance_mode`, every other column is
overwritten from the form, with the derived fields recomputed at lines 204-206. -/
def updatedRecord (b : Booking) (c : Candidate) : Booking :=
  let dur := durHours c.start_time c.end_time
  let tot := pyInt (dur * (c.rate : ℚ))
  let rem := tot - c.advance - c.balance
  { b with booking_date := c.date, booked_by := c.name, mobile_number := c.mobile,
           start_time := c.start_time, end_time := c.end_time,
           total_hours := dur, rate_per_hour := c.rate, total_charges := tot,
           advance_paid := c.advance, balance_paid := c.balance,
           advance_mode := c.mode, remaining_due := rem, remarks := c.remarks }

/-- Replacement at the first index whose `id` matches
(`df.index[df['id'] == edit_id][0]` at src/app.py line 208). -/
def replaceFirst (df : List Booking) (edit_id : ℤ) (c : Candidate) : List Booking :=
  match df with
  | [] => []
  | b :: rest =>
      if b.id = edit_id then updatedRecord b c :: rest else b :: replaceFirst rest edit_id c

/-- Embedding of the edit handler's save path (src/app.py lines 144-146 and
196-227): the edit screen first looks the record up by id (line 146, raising
when absent, modelled as `NotFound`), then validates the interval, then the
overlap excluding `edit_id`, and on success rewrites the record in place. -/
def updateBooking (df : List Booking) (edit_id : ℤ) (c : Candidate) :
    Except BookingError (List Booking) :=
  if df.any (fun b => b.id == edit_id) then
    if sGe c.start_time c.end_time then .error .InvalidInterval
    else if check_overlap df c.date c.start_time c.end_time (some edit_id) then
      .error .OverlappingBooking
    else .ok (replaceFirst df edit_id c)
  else .error .NotFound

/-- Embedding of the delete handler (src/app.py lines 144-146 and 188-194): the
edit screen's record lookup (line 146) fails when the id is absent (modelled as
`NotFound`); otherwise the handler keeps the rows with `df['id'] != edit_id`. -/
def deleteBooking (df : List Booking) (edit_id : ℤ) : Except BookingError (List Booking) :=
  if df.any (fun b => b.id == edit_id) then
    .ok (df.filter (fun b => b.id != edit_id))
  else .error .NotFound

/-- Record set the create handler hands to `save_data`: on failure no save
happens (src/app.py lines 260-263 only display a message), so the persisted
set stays `df`. -/
def create_handler (df : List Booking) (c : Candidate) : List Booking :=
  match createBooking df c with
  | .ok res => res
  | .error _ => df

/-- Record set the edit handler hands to `save_data`: on failure no save
happens (src/app.py lines 198-201 only display a message), so the persisted
set stays `df`. -/
def edit_handler (df : List Booking) (edit_id : ℤ) (c : Candidate) : List Booking :=
  match updateBooking df edit_id c with
  | .ok res => res
  | .error _ => df

/-- Two bookings collide when they carry the same date string and their
half-open `[start_time, end_time)` intervals intersect under the string order
the source compares times with. -/
def Overlaps (a b : Booking) : Prop :=
  a.booking_date = b.booking_date ∧
    sLt a.start_time b.end_time = true ∧ sLt b.start_time a.end_time = true

instance : DecidablePred fun p : Booking × Booking => Overlaps p.1 p.2 := by
  intro p; unfold Overlaps; infer_instance

instance (a b : Booking) : Decidable (Overlaps a b) := by
  unfold Overlaps; infer_instance

/-- Central invariant of the system (spec §3): no two bookings of the set, in
either order, are on the same date with intersecting intervals. -/
def NoOverlap (df : List Booking) : Prop :=
  df.Pairwise fun a b => ¬ Overlaps a b ∧ ¬ Overlaps b a

instance (df : List Booking) : Decidable (NoOverlap df) := by
  unfold NoOverlap; infer_instance

example : sLt "10:00" "10:30" = true := by decide
example : sGe "11:00" "11:00" = true := by decide
example : get_time_slots.length = 48 := by decide
example : get_time_slots.head? = some "00:00" := by decide
example : get_time_slots.getLast? = some "23:30" := by decide
example : hhmmToMinutes "23:30" = 1410 := by decide
example : minutesToHHMM 90 = "01:30" := by decide

lemma overlap_chain {l m : List Booking} {q : Booking → Bool} {P : Booking → Prop}
    (hm : ∀ b, b ∈ m ↔ b ∈ l ∧ P b) :
    (if l.isEmpty then false else if m.isEmpty then false else !(m.filter q).isEmpty) = true
      ↔ ∃ b ∈ l, P b ∧ q b = true := by
  split_ifs with h0 h1
  · simp only [List.isEmpty_eq_true] at h0; subst h0
    simp only [Bool.false_eq_true, false_iff]
    rintro ⟨b, hb, -⟩
    exact absurd hb (List.not_mem_nil b)
  · simp only [List.isEmpty_eq_true] at h1
    simp only [Bool.false_eq_true, false_iff]
    rintro ⟨b, hb, hP, hq⟩
    have hmem := (hm b).2 ⟨hb, hP⟩
    rw [h1] at hmem
    exact absurd hmem (List.not_mem_nil b)
  · simp only [Bool.not_eq_true', List.isEmpty_eq_false_iff_exists_mem, List.mem_filter]
    constructor
    · rintro ⟨b, hb, hq⟩
      obtain ⟨hbl, hP⟩ := (hm b).1 hb
      exact ⟨b, hbl, hP, hq⟩
    · rintro ⟨b, hbl, hP, hq⟩
      exact ⟨b, (hm b).2 ⟨hbl, hP⟩, hq⟩

/-- Characterization of `check_overlap`: it reports `true` exactly when some
booking of the set carries the candidate's date string, is not the excluded id,
and satisfies the half-open intersection test. -/
lemma check_overlap_iff (df : List Booking) (d s e : String) (x : Option ℤ) :
    check_overlap df d s e x = true ↔
      ∃ b ∈ df, b.booking_date = d ∧ (∀ k, x = some k → b.id ≠ k) ∧
        sLt b.start_time e = true ∧ sLt s b.end_time = true := by
  rcases x with _ | k
  · simp only [check_overlap]
    rw [overlap_chain (P := fun b => b.booking_date = d)
      (fun b => by simp only [List.mem_filter, beq_iff_eq])]
    simp only [Bool.and_eq_true]
    constructor
    · rintro ⟨b, hb, hd, h1, h2⟩
      exact ⟨b, hb, hd, fun k hk => Option.noConfusion hk, h1, h2⟩
    · rintro ⟨b, hb, hd, -, h1, h2⟩
      exact ⟨b, hb, hd, h1, h2⟩
  · simp only [check_overlap]
    rw [overlap_chain (P := fun b => b.booking_date = d ∧ b.id ≠ k)
      (fun b => by
        simp only [List.mem_filter, Bool.and_eq_true, beq_iff_eq, bne_iff_ne, ne_eq]
        tauto)]
    simp only [Bool.and_eq_true]
    constructor
    · rintro ⟨b, hb, ⟨hd, hk⟩, h1, h2⟩
      refine ⟨b, hb, hd, ?_, h1, h2⟩
      rintro k' hk'
      injection hk' with hkk
      exact hkk ▸ hk
    · rintro ⟨b, hb, hd, hk, h1, h2⟩
      exact ⟨b, hb, ⟨hd, hk k rfl⟩, h1, h2⟩

/-- Test fixture: a booking with the given id, date and interval, the other
columns filled with neutral values. -/
def mkBooking (i : ℤ) (d s e : String) : Booking :=
  { id := i, booking_date := d, start_time := s, end_time := e,
    total_hours := 1, rate_per_hour := 1000, total_charges := 1000,
    booked_by := "", mobile_number := "", advance_paid := 0, advance_mode := "Cash",
    balance_paid := 0, balance_mode := "Cash", remaining_due := 1000, remarks := "" }

/-- Test fixture: a candidate with the given date, interval and money inputs. -/
def mkCand (d s e : String) (r a bal : ℤ) : Candidate :=
  { date := d, name := "N", mobile := "", start_time := s, end_time := e,
    rate := r, advance := a, balance := bal, mode := "Cash", remarks := "" }

/-- C2: the overlap check reports a conflict iff some booking on the same date,
other than the excluded id, has `start_time < newEnd` and `end_time > newStart`
(string comparisons); a back-to-back candidate is admitted, partial and total
overlaps are rejected, and re-saving a booking over its own slot is not flagged
against itself. -/
theorem overlap_admissibility :
    (∀ (df : List Booking) (d s e : String) (x : Option ℤ),
        check_overlap df d s e x = true ↔
          ∃ b ∈ df, b.booking_date = d ∧ (∀ k, x = some k → b.id ≠ k) ∧
            sLt b.start_time e = true ∧ sLt s b.end_time = true) ∧
    check_overlap [mkBooking 1 "2024-01-10" "11:00" "12:00"] "2024-01-10" "10:00" "11:00" none
      = false ∧
    check_overlap [mkBooking 1 "2024-01-10" "10:30" "11:30"] "2024-01-10" "10:00" "11:00" none
      = true ∧
    check_overlap [mkBooking 1 "2024-01-10" "09:00" "12:00"] "2024-01-10" "10:00" "11:00" none
      = true ∧
    check_overlap [mkBooking 5 "2024-01-10" "14:00" "15:00"] "2024-01-10" "14:00" "15:00" (some 5)
      = false :=
  ⟨check_overlap_iff, by decide, by decide, by decide, by decide⟩

/-- C10: the overlap check matches dates by exact string equality, so a record
set in which every stored date string differs from the candidate's date string
yields no conflict, whatever the times are. -/
theorem date_match_exact :
    ∀ (df : List Booking) (d s e : String) (x : Option ℤ),
      (∀ b ∈ df, b.booking_date ≠ d) → check_overlap df d s e x = false := by
  intro df d s e x h
  cases hco : check_overlap df d s e x
  · rfl
  · exfalso
    obtain ⟨b, hb, hd, -⟩ := (check_overlap_iff df d s e x).1 hco
    exact h b hb hd

/-- Witness for C10: an existing booking stored under the date string
`"2024-1-10"` (the same calendar day, unpadded) never conflicts with a
candidate on `"2024-01-10"`, even at the very same times. -/
theorem date_match_exact_witness :
    check_overlap [mkBooking 1 "2024-1-10" "10:00" "11:00"] "2024-01-10" "10:00" "11:00" none
      = false :=
  date_match_exact _ _ _ _ _ (by decide)

/-- C3: a candidate whose start is not strictly before its end makes Create and
Update fail with `InvalidInterval` — never with `OverlappingBooking`, since the
interval test precedes the overlap check on both paths. -/
theorem invalid_interval_first :
    ∀ (df : List Booking) (c : Candidate) (k : ℤ),
      sGe c.start_time c.end_time = true → k ∈ df.map Booking.id →
        createBooking df c = Except.error BookingError.InvalidInterval ∧
        updateBooking df k c = Except.error BookingError.InvalidInterval := by
  intro df c k hge hk
  have hmem : df.any (fun b => b.id == k) = true := by
    rw [List.any_eq_true]
    obtain ⟨b, hb, hbk⟩ := List.mem_map.1 hk
    exact ⟨b, hb, beq_iff_eq.2 hbk⟩
  constructor
  · simp [createBooking, hge]
  · simp [updateBooking, hmem, hge]

/-- Witness for C3: saving the degenerate interval `12:00 ≥ 11:00` fails with
`InvalidInterval` on both the add form and the edit form, even though the slot
also collides with the existing booking. -/
theorem invalid_interval_first_witness :
    createBooking [mkBooking 1 "2024-01-10" "10:00" "13:00"]
        (mkCand "2024-01-10" "12:00" "11:00" 1000 0 0)
      = Except.error BookingError.InvalidInterval ∧
    updateBooking [mkBooking 1 "2024-01-10" "10:00" "13:00"] 1
        (mkCand "2024-01-10" "12:00" "11:00" 1000 0 0)
      = Except.error BookingError.InvalidInterval :=
  invalid_interval_first _ _ 1 (by decide) (by decide)

/-- C7: when Create or Update fails, the handler performs no save, so the
persisted record set is exactly the one it was handed; a create failure is
always `InvalidInterval` or `OverlappingBooking`. -/
theorem atomic_on_failure :
    ∀ (df : List Booking) (c : Candidate) (k : ℤ) (err : BookingError),
      (createBooking df c = .error err →
        create_handler df c = df ∧
          (err = .InvalidInterval ∨ err = .OverlappingBooking)) ∧
      (updateBooking df k c = .error err → edit_handler df k c = df) := by
  intro df c k err
  constructor
  · intro h
    refine ⟨by unfold create_handler; rw [h], ?_⟩
    unfold createBooking at h
    split_ifs at h with h1 h2
    · injection h with he
      exact Or.inl he.symm
    · injection h with he
      exact Or.inr he.symm
  · intro h
    unfold edit_handler
    rw [h]

/-- C8: Delete on an id that no booking carries fails with `NotFound`;
otherwise it removes exactly the booking with that id and returns the rest of
the set unchanged and in order. -/
theorem delete_semantics :
    ∀ (df : List Booking) (k : ℤ),
      ((∀ b ∈ df, b.id ≠ k) → deleteBooking df k = .error .NotFound) ∧
      (∀ (l₁ : List Booking) (b₀ : Booking) (l₂ : List Booking),
        df = l₁ ++ b₀ :: l₂ → b₀.id = k → (∀ b ∈ l₁ ++ l₂, b.id ≠ k) →
          deleteBooking df k = .ok (l₁ ++ l₂)) := by
  intro df k
  constructor
  · intro h
    have hany : df.any (fun b => b.id == k) = false := by
      rw [Bool.eq_false_iff]
      intro hx
      obtain ⟨b, hb, hbk⟩ := List.any_eq_true.1 hx
      exact h b hb (beq_iff_eq.1 hbk)
    simp [deleteBooking, hany]
  · rintro l₁ b₀ l₂ rfl hb₀ hrest
    have hany : (l₁ ++ b₀ :: l₂).any (fun b => b.id == k) = true := by
      rw [List.any_eq_true]
      exact ⟨b₀, by simp, beq_iff_eq.2 hb₀⟩
    have h1 : (l₁.filter fun b => b.id != k) = l₁ :=
      List.filter_eq_self.2 fun b hb => bne_iff_ne.2 (hrest b (by simp [hb]))
    have h2 : (l₂.filter fun b => b.id != k) = l₂ :=
      List.filter_eq_self.2 fun b hb => bne_iff_ne.2 (hrest b (by simp [hb]))
    have hfilter : ((l₁ ++ b₀ :: l₂).filter fun b => b.id != k) = l₁ ++ l₂ := by
      rw [List.filter_append, List.filter_cons]
      simp [hb₀, h1, h2]
    simp [deleteBooking, hany, hfilter]

lemma le_foldl_max (l : List Booking) (a : ℤ) :
    a ≤ l.foldl (fun acc x => max acc x.id) a := by
  induction l generalizing a with
  | nil => simp
  | cons b rest ih =>
    rw [List.foldl_cons]
    exact le_trans (le_max_left a b.id) (ih (max a b.id))

lemma mem_le_foldl_max (l : List Booking) (a : ℤ) (b : Booking) (hb : b ∈ l) :
    b.id ≤ l.foldl (fun acc x => max acc x.id) a := by
  induction l generalizing a with
  | nil => cases hb
  | cons c rest ih =>
    rw [List.foldl_cons]
    rcases List.mem_cons.1 hb with rfl | hb'
    · exact le_trans (le_max_right a b.id) (le_foldl_max rest _)
    · exact ih _ hb'

lemma foldl_max_mem (l : List Booking) (a : ℤ) :
    l.foldl (fun acc x => max acc x.id) a = a ∨
      l.foldl (fun acc x => max acc x.id) a ∈ l.map Booking.id := by
  induction l generalizing a with
  | nil => exact Or.inl rfl
  | cons b rest ih =>
    rw [List.foldl_cons]
    rcases ih (max a b.id) with h | h
    · rw [h]
      rcases max_choice a b.id with hm | hm
      · exact Or.inl hm
      · refine Or.inr ?_
        rw [hm, List.map_cons]
        exact List.mem_cons_self _ _
    · refine Or.inr ?_
      rw [List.map_cons]
      exact List.mem_cons_of_mem _ h

/-- C5: a created booking gets id `get_next_id df`; on a nonempty set that is
the maximum stored id plus one (the maximum being attained by some booking and
bounding all of them), on an empty set it is 1; and ingestion coerces
non-numeric or missing id cells to 0 while keeping numeric ones. -/
theorem id_allocation :
    (∀ (df : List Booking) (c : Candidate) (res : List Booking),
        createBooking df c = .ok res →
          ∃ nb, res = df ++ [nb] ∧ nb.id = get_next_id df) ∧
    get_next_id [] = 1 ∧
    (∀ (b : Booking) (df : List Booking),
        get_next_id (b :: df) = maxId (b :: df) + 1 ∧
        maxId (b :: df) ∈ (b :: df).map Booking.id ∧
        (∀ i ∈ (b :: df).map Booking.id, i ≤ maxId (b :: df))) ∧
    (∀ s, coerce_id (.text s) = 0) ∧ coerce_id .blank = 0 ∧ ∀ n, coerce_id (.num n) = n := by
  refine ⟨?_, rfl, ?_, fun s => rfl, rfl, fun n => rfl⟩
  · intro df c res h
    unfold createBooking at h
    split_ifs at h with h1 h2
    injection h with he
    exact ⟨_, he.symm, rfl⟩
  · intro b df
    have hmax : maxId (b :: df) = df.foldl (fun acc x => max acc x.id) b.id := rfl
    refine ⟨rfl, ?_, ?_⟩
    · rw [hmax]
      rcases foldl_max_mem df b.id with h | h
      · rw [h, List.map_cons]
        exact List.mem_cons_self _ _
      · rw [List.map_cons]
        exact List.mem_cons_of_mem _ h
    · intro i hi
      rw [hmax]
      rw [List.map_cons] at hi
      rcases List.mem_cons.1 hi with rfl | hi'
      · exact le_foldl_max df b.id
      · obtain ⟨x, hx, rfl⟩ := List.mem_map.1 hi'
        exact mem_le_foldl_max df b.id x hx

/-- Counterexample to C6: the set holds only booking id 1; deleting id 1
empties the set, and the next create allocates id 1 again — the deleted
identifier is reused. -/
theorem id_reuse_counterexample :
    deleteBooking [mkBooking 1 "2024-01-10" "10:00" "11:00"] 1 = .ok [] ∧
    ∃ res, createBooking [] (mkCand "2024-01-10" "10:00" "11:00" 1000 0 0) = .ok res ∧
      res.map Booking.id = [1] := by
  refine ⟨rfl, _, rfl, ?_⟩
  decide

/-- C6 amended: after a delete and a subsequent successful create, the new id
is `get_next_id` of the remaining set — strictly greater than every remaining
id, hence unique within the new set — but it is not guaranteed to differ from
the deleted id, which is reused whenever it exceeded the remaining maximum. -/
theorem id_allocation_after_delete :
    ∀ (df : List Booking) (k : ℤ) (df' : List Booking) (c : Candidate) (res : List Booking),
      deleteBooking df k = .ok df' → createBooking df' c = .ok res →
        ∃ nb, res = df' ++ [nb] ∧ nb.id = get_next_id df' ∧
          ∀ b ∈ df', b.id < nb.id := by
  intro df k df' c res hdel hcre
  unfold createBooking at hcre
  split_ifs at hcre with h1 h2
  injection hcre with he
  refine ⟨_, he.symm, rfl, ?_⟩
  intro b hb
  show b.id < get_next_id df'
  cases df' with
  | nil => cases hb
  | cons b0 rest =>
    have hle : b.id ≤ maxId (b0 :: rest) := by
      have hm : maxId (b0 :: rest) = rest.foldl (fun acc x => max acc x.id) b0.id := rfl
      rw [hm]
      rcases List.mem_cons.1 hb with rfl | hb'
      · exact le_foldl_max rest b.id
      · exact mem_le_foldl_max rest b0.id b hb'
    have : get_next_id (b0 :: rest) = maxId (b0 :: rest) + 1 := rfl
    omega

/-- Witness for the amended C6: deleting id 2 from a two-booking set and
creating again yields a booking whose id is fresh for the remaining set. -/
theorem id_allocation_after_delete_witness :
    ∃ res nb, res = ([mkBooking 1 "2024-01-10" "08:00" "09:00"] : List Booking) ++ [nb] ∧
      nb.id = get_next_id [mkBooking 1 "2024-01-10" "08:00" "09:00"] ∧
      ∀ b ∈ ([mkBooking 1 "2024-01-10" "08:00" "09:00"] : List Booking), b.id < nb.id :=
  ⟨_, id_allocation_after_delete
      [mkBooking 1 "2024-01-10" "08:00" "09:00", mkBooking 2 "2024-01-10" "09:00" "10:00"] 2
      [mkBooking 1 "2024-01-10" "08:00" "09:00"]
      (mkCand "2024-01-10" "10:00" "11:00" 1000 0 0) _ rfl rfl⟩

lemma pyInt_eq_floor {q : ℚ} (h : 0 ≤ q) : pyInt q = ⌊q⌋ := by
  unfold pyInt
  rw [Rat.floor_def]
  exact Int.tdiv_eq_ediv (Rat.num_nonneg.2 h) (Int.natCast_nonneg q.den)

lemma durHours_eq (s e : String) :
    durHours s e = (((hhmmToMinutes e : ℤ) - (hhmmToMinutes s : ℤ) : ℤ) : ℚ) / 60 := by
  unfold durHours
  push_cast
  ring

/-- C4: both handlers store `duration_hours` as the minute difference of the
parsed times divided by 60, `total_charge` as `int(duration * rate)` (the same
truncating conversion on both paths, which is the floor whenever the product is
non-negative), and `remaining_due` as `total_charge - advance - balance`; all
three are recomputed from the form inputs, which carry no derived field. -/
theorem ledger_derivation :
    (∀ (df : List Booking) (c : Candidate) (res : List Booking),
        createBooking df c = .ok res →
          ∃ nb, res = df ++ [nb] ∧
            nb.total_hours = durHours c.start_time c.end_time ∧
            nb.total_charges = pyInt (nb.total_hours * (c.rate : ℚ)) ∧
            nb.remaining_due = nb.total_charges - c.advance - c.balance) ∧
    (∀ (b : Booking) (c : Candidate),
        (updatedRecord b c).total_hours = durHours c.start_time c.end_time ∧
        (updatedRecord b c).total_charges
          = pyInt ((updatedRecord b c).total_hours * (c.rate : ℚ)) ∧
        (updatedRecord b c).remaining_due
          = (updatedRecord b c).total_charges - c.advance - c.balance) ∧
    (∀ s e : String,
        durHours s e = (((hhmmToMinutes e : ℤ) - (hhmmToMinutes s : ℤ) : ℤ) : ℚ) / 60) ∧
    (∀ q : ℚ, 0 ≤ q → pyInt q = ⌊q⌋) := by
  refine ⟨?_, ?_, durHours_eq, fun q h => pyInt_eq_floor h⟩
  · intro df c res h
    unfold createBooking at h
    split_ifs at h with h1 h2
    injection h with he
    exact ⟨_, he.symm, rfl, rfl, rfl⟩
  · intro b c
    exact ⟨rfl, rfl, rfl⟩

lemma mem_replaceFirst (df : List Booking) (k : ℤ) (c : Candidate) (y : Booking)
    (hy : y ∈ replaceFirst df k c) :
    y ∈ df ∨ ∃ b₀, b₀ ∈ df ∧ b₀.id = k ∧ y = updatedRecord b₀ c := by
  induction df with
  | nil =>
    unfold replaceFirst at hy
    exact absurd hy (List.not_mem_nil y)
  | cons b rest ih =>
    unfold replaceFirst at hy
    by_cases hbk : b.id = k
    · rw [if_pos hbk] at hy
      rcases List.mem_cons.1 hy with rfl | hy'
      · exact Or.inr ⟨b, List.mem_cons_self _ _, hbk, rfl⟩
      · exact Or.inl (List.mem_cons_of_mem _ hy')
    · rw [if_neg hbk] at hy
      rcases List.mem_cons.1 hy with rfl | hy'
      · exact Or.inl (List.mem_cons_self _ _)
      · rcases ih hy' with h | ⟨b₀, hb₀, hbid, hyeq⟩
        · exact Or.inl (List.mem_cons_of_mem _ h)
        · exact Or.inr ⟨b₀, List.mem_cons_of_mem _ hb₀, hbid, hyeq⟩

lemma replaceFirst_no_overlap (df : List Booking) (k : ℤ) (c : Candidate)
    (hno : NoOverlap df) (hnod : (df.map Booking.id).Nodup)
    (hov : ∀ b ∈ df, b.id ≠ k →
        ¬(b.booking_date = c.date ∧ sLt b.start_time c.end_time = true ∧
          sLt c.start_time b.end_time = true)) :
    NoOverlap (replaceFirst df k c) := by
  induction df with
  | nil => exact List.Pairwise.nil
  | cons b rest ih =>
    unfold NoOverlap at hno ⊢
    rw [List.pairwise_cons] at hno
    obtain ⟨hb, hrest⟩ := hno
    rw [List.map_cons, List.nodup_cons] at hnod
    obtain ⟨hbnotin, hnod'⟩ := hnod
    unfold replaceFirst
    by_cases hbk : b.id = k
    · rw [if_pos hbk, List.pairwise_cons]
      refine ⟨?_, hrest⟩
      intro y hy
      have hyk : y.id ≠ k := by
        intro hyk
        exact hbnotin (List.mem_map.2 ⟨y, hy, by rw [hyk, hbk]⟩)
      have hovy := hov y (List.mem_cons_of_mem _ hy) hyk
      constructor
      · rintro ⟨hd, hs, he⟩
        exact hovy ⟨hd.symm, he, hs⟩
      · rintro ⟨hd, hs, he⟩
        exact hovy ⟨hd, hs, he⟩
    · rw [if_neg hbk, List.pairwise_cons]
      refine ⟨?_, ih hrest hnod' fun y hy hyk => hov y (List.mem_cons_of_mem _ hy) hyk⟩
      intro y hy
      rcases mem_replaceFirst rest k c y hy with hy' | ⟨b₀, hb₀, hbid, rfl⟩
      · exact hb y hy'
      · have hovb := hov b (List.mem_cons_self _ _) hbk
        constructor
        · rintro ⟨hd, hs, he⟩
          exact hovb ⟨hd, hs, he⟩
        · rintro ⟨hd, hs, he⟩
          exact hovb ⟨hd.symm, he, hs⟩

/-- Counterexample to C1 as stated: over arbitrary record sets the no-overlap
precondition alone does not survive Update.  With two distinct bookings that
share id 5 (possible only when the id-uniqueness invariant is already broken),
editing id 5 onto the second slot excludes both records from the check and the
saved set holds two bookings on the same date and interval. -/
theorem no_overlap_update_counterexample :
    NoOverlap [mkBooking 5 "2024-01-10" "10:00" "11:00",
               mkBooking 5 "2024-01-10" "12:00" "13:00"] ∧
    ∃ res, updateBooking
        [mkBooking 5 "2024-01-10" "10:00" "11:00",
         mkBooking 5 "2024-01-10" "12:00" "13:00"] 5
        (mkCand "2024-01-10" "12:00" "13:00" 1000 0 0) = .ok res ∧
      ¬ NoOverlap res := by
  refine ⟨by decide, _, rfl, ?_⟩
  decide

/-- C1 amended: on a record set with pairwise-distinct ids (the data model's
id-uniqueness invariant) and no same-date interval intersection, every
successful Create, Update, or Delete returns a set that again has no two
same-date bookings with intersecting intervals. -/
theorem no_overlap_preserved :
    ∀ df : List Booking, NoOverlap df → (df.map Booking.id).Nodup →
      (∀ (c : Candidate) (res : List Booking),
          createBooking df c = .ok res → NoOverlap res) ∧
      (∀ (k : ℤ) (res : List Booking),
          deleteBooking df k = .ok res → NoOverlap res) ∧
      (∀ (k : ℤ) (c : Candidate) (res : List Booking),
          updateBooking df k c = .ok res → NoOverlap res) := by
  intro df hno hnod
  refine ⟨?_, ?_, ?_⟩
  · intro c res h
    unfold createBooking at h
    split_ifs at h with h1 h2
    injection h with he
    rw [← he]
    unfold NoOverlap
    rw [List.pairwise_append]
    refine ⟨hno, List.pairwise_singleton _ _, ?_⟩
    intro a ha nb hnb
    rw [List.mem_singleton] at hnb
    subst hnb
    rw [check_overlap_iff] at h2
    constructor
    · rintro ⟨hd, hs, he2⟩
      exact h2 ⟨a, ha, hd, fun k hk => Option.noConfusion hk, hs, he2⟩
    · rintro ⟨hd, hs, he2⟩
      exact h2 ⟨a, ha, hd.symm, fun k hk => Option.noConfusion hk, he2, hs⟩
  · intro k res h
    unfold deleteBooking at h
    split_ifs at h with h1
    injection h with he
    rw [← he]
    exact List.Pairwise.sublist (List.filter_sublist df) hno
  · intro k c res h
    unfold updateBooking at h
    split_ifs at h with hmem hge hov
    injection h with he
    rw [← he]
    rw [check_overlap_iff] at hov
    refine replaceFirst_no_overlap df k c hno hnod ?_
    intro b hb hbk hcon
    refine hov ⟨b, hb, hcon.1, ?_, hcon.2.1, hcon.2.2⟩
    rintro k' hk'
    injection hk' with hkk
    exact hkk ▸ hbk

/-- Witness for the amended C1: appending a back-to-back booking through the
create handler keeps the demonstration set overlap-free. -/
theorem no_overlap_preserved_witness :
    ∃ res, createBooking [mkBooking 1 "2024-01-10" "10:00" "11:00"]
        (mkCand "2024-01-10" "11:00" "12:00" 1000 0 0) = .ok res ∧ NoOverlap res :=
  ⟨_, rfl, (no_overlap_preserved [mkBooking 1 "2024-01-10" "10:00" "11:00"]
      (by decide) (by decide)).1 (mkCand "2024-01-10" "11:00" "12:00" 1000 0 0) _ rfl⟩

/-- C9: `get_time_slots` yields the 48 half-hour boundaries of the day in
ascending order, `"00:00"` through `"23:30"`, each the zero-padded `"HH:MM"`
rendering of its minute value; and on any two produced slots the lexicographic
string comparison the app uses agrees with comparing minutes since midnight. -/
theorem time_slots_spec :
    get_time_slots = (List.range 48).map (fun i => minutesToHHMM (30 * i)) ∧
    get_time_slots.head? = some "00:00" ∧
    get_time_slots.getLast? = some "23:30" ∧
    List.Pairwise (fun s t => sLt s t = true) get_time_slots ∧
    ∀ s ∈ get_time_slots, ∀ t ∈ get_time_slots,
      (sLt s t = true ↔ hhmmToMinutes s < hhmmToMinutes t) := by
  exact ⟨by decide, by decide, by decide, by decide, by decide⟩
